import Mathlib

/-!
Shallow embedding of the synchronization and rendering core of
`src/src/components/Whiteboard.tsx` (a real-time collaborative whiteboard).

Modelling conventions:
- JS numbers that the core only stores and compares (coordinates, brush
  sizes) are modelled as `Rat`; timestamps as `Int`.
- The JS `Map` used for remote cursors is modelled as an association list
  in insertion order; `Map.set` keeps the position of an existing key and
  appends a fresh key at the tail (`mapSet` below).
- A raw realtime payload can carry a missing `points` field despite the TS
  type annotation (the code guards with `!stroke.points` in `redrawAll`),
  so `Stroke.points` is `Option (List Point)`.
- Canvas drawing is modelled by a small display-op language `DrawOp`; the
  canvas content (`Image`) is the list of ops drawn since the last
  full-surface clear. `redrawAll` always begins with
  `clearRect(0,0,canvas.width,canvas.height)`, which covers the whole
  backing buffer, so a `clearRect` op resets the image.
- Under the `destination-out` composite mode the source color does not
  affect the output (only the source's alpha geometry erases), so eraser
  ops carry no color (`none`); this matches the code, which does not set
  `strokeStyle` on the eraser path.
- Line joins and caps are always round in the code and carry no
  claim-relevant information, so they are not part of `DrawOp`.
-/

/-- A point in the canvas's logical (CSS-pixel) coordinate space. -/
structure Point where
  x : Rat
  y : Rat
deriving DecidableEq

/-- A committed stroke (interface `Stroke` in the source). `points` is
optional because a raw realtime payload can omit it at runtime. -/
structure Stroke where
  id : String
  points : Option (List Point)
  color : String
  size : Rat
  tool : String
  userId : String
deriving DecidableEq

/-- A remote participant's last-known cursor state (interface
`RemoteCursor` in the source). -/
structure RemoteCursor where
  userId : String
  userName : String
  userColor : String
  x : Rat
  y : Rat
  timestamp : Int
deriving DecidableEq

/-- A presence record as tracked over the presence channel. -/
structure PresenceRecord where
  user_id : String
  user_name : String
  user_color : String
  x : Rat
  y : Rat
  timestamp : Int
deriving DecidableEq

/-- The raw `payload.new` of a realtime INSERT notification; `points` may
be absent at runtime. -/
structure InsertPayload where
  id : String
  points : Option (List Point)
  color : String
  size : Rat
  tool : String
  user_id : String
deriving DecidableEq

/-- The row submitted to the persistence port
(`supabase.from("whiteboard_strokes").insert`). -/
structure PersistRow where
  room_id : String
  user_id : String
  user_name : String
  user_color : String
  points : List Point
  color : String
  size : Rat
  tool : String
deriving DecidableEq

/-- The latest tool/color/size values, as read through
`currentToolRef` / `currentColorRef` / `brushSizeRef`. -/
structure LiveVals where
  tool : String
  color : String
  size : Rat
deriving DecidableEq

/-- The session identity and room binding (props of the component). -/
structure SessionCtx where
  roomId : String
  userId : String
  userName : String
  userColor : String
deriving DecidableEq

/-- Transient local-capture state: `isDrawingRef` and `currentPointsRef`. -/
structure CaptureState where
  isDrawing : Bool
  currentPoints : Option (List Point)
deriving DecidableEq

/-- One pointer-move event during a gesture, together with the live
tool/color/size values at the moment the move is handled. -/
structure MoveSample where
  pt : Point
  live : LiveVals
deriving DecidableEq

/-- Canvas dimensions: backing buffer size in device pixels and the CSS
size reported by `getBoundingClientRect`. -/
structure CanvasDims where
  deviceW : Rat
  deviceH : Rat
  cssW : Rat
  cssH : Rat
deriving DecidableEq

/-- Canvas 2D compositing modes used by the code. -/
inductive CompositeMode where
  | sourceOver
  | destinationOut
deriving DecidableEq

/-- Primitive drawing operations emitted to the canvas. A polyline's
color is `none` exactly when the op is drawn under `destination-out`,
where the source color cannot affect the output. -/
inductive DrawOp where
  | clearRect (w h : Rat)
  | fillRect (color : String) (w h : Rat)
  | polyline (mode : CompositeMode) (color : Option String) (width : Rat)
      (pts : List Point)
  | circle (color : String) (center : Point) (radius : Rat)
  | label (color : String) (font : String) (text : String) (pos : Point)
deriving DecidableEq

/-- Canvas content: the ops drawn since the last full-surface clear. -/
abbrev Image := List DrawOp

/-- Everything `redrawAll` reads: the committed stroke list
(`strokesRef`), the in-progress point list (`currentPointsRef`), the
remote-cursor mapping, and the live tool/color/size refs. -/
structure RenderState where
  strokes : List Stroke
  pendingPoints : Option (List Point)
  remoteCursors : List (String × RemoteCursor)
  live : LiveVals
deriving DecidableEq

/-- JS `Map.set` on an insertion-ordered association list: an existing
key is updated in place, a fresh key is appended at the tail. -/
def mapSet {α : Type} (m : List (String × α)) (k : String) (v : α) :
    List (String × α) :=
  if k ∈ m.map Prod.fst then
    m.map (fun kv => if kv.1 = k then (k, v) else kv)
  else
    m ++ [(k, v)]

/-- The compositing mode the code selects for a tool. -/
def toolMode (tool : String) : CompositeMode :=
  if tool = "eraser" then .destinationOut else .sourceOver

/-- The INSERT notification handler builds a `Stroke` from the raw
payload fields without validating them. -/
def parseInsert (p : InsertPayload) : Stroke :=
  { id := p.id, points := p.points, color := p.color, size := p.size,
    tool := p.tool, userId := p.user_id }

/-- `setStrokes((prev) => [...prev, newStroke])` in the INSERT handler:
append the remote stroke at the tail. -/
def applyRemoteInsert (strokes : List Stroke) (p : InsertPayload) :
    List Stroke :=
  strokes ++ [parseInsert p]

/-- The DELETE handler: `setStrokes([])`, unconditionally. -/
def applyRemoteClear (_strokes : List Stroke) : List Stroke :=
  []

/-- `commitStroke` on pointer-up: an empty or absent point list returns
early (no append, no persistence submission, `currentPointsRef` kept);
otherwise the finished stroke is appended to the committed list with the
live tool/color/size, the persistence row is submitted, and
`currentPointsRef` is reset to null. Returns (new `currentPointsRef`,
new committed list, submitted row if any). -/
def commitStroke (cur : Option (List Point)) (strokes : List Stroke)
    (live : LiveVals) (ctx : SessionCtx) (tempId : String) :
    Option (List Point) × List Stroke × Option PersistRow :=
  match cur with
  | none => (none, strokes, none)
  | some pts =>
    if pts.length = 0 then (some pts, strokes, none)
    else
      let localStroke : Stroke :=
        { id := tempId, points := some pts, color := live.color,
          size := live.size, tool := live.tool, userId := ctx.userId }
      let row : PersistRow :=
        { room_id := ctx.roomId, user_id := ctx.userId,
          user_name := ctx.userName, user_color := ctx.userColor,
          points := pts, color := live.color, size := live.size,
          tool := live.tool }
      (none, strokes ++ [localStroke], some row)

/-- Outcome of the awaited persistence write. -/
inductive PersistResult where
  | ok
  | storageError (msg : String)
deriving DecidableEq

/-- What happens to the committed list once the persistence write
resolves: nothing — on error the code only logs
(`console.error("Error saving stroke:", error)`). Returns the (unchanged)
list and the log line, if any. -/
def afterPersist (strokes : List Stroke) (r : PersistResult) :
    List Stroke × Option String :=
  match r with
  | .ok => (strokes, none)
  | .storageError msg => (strokes, some ("Error saving stroke: " ++ msg))

/-- `handlePointerDown`: a non-primary button (`ev.button` present and
nonzero) is ignored; otherwise capture starts with the first point
recorded. -/
def handlePointerDown (cs : CaptureState) (button : Option Nat)
    (pt : Point) : CaptureState :=
  match button with
  | some b => if b ≠ 0 then cs else ⟨true, some [pt]⟩
  | none => ⟨true, some [pt]⟩

/-- One segment drawn by `drawSegment`, styled with the live
tool/color/size read through the refs at the moment of the call. -/
def drawSegment (live : LiveVals) (p q : Point) : DrawOp :=
  .polyline (toolMode live.tool)
    (if live.tool = "eraser" then none else some live.color)
    live.size [p, q]

/-- The drawing part of `handlePointerMove`: when capturing, the new
point is pushed onto `currentPointsRef` and exactly the segment from the
previous point to it is drawn with the live values. (The handler also
re-broadcasts presence on every move, modelled by `trackRecord`.) The
source reads `pending[pending.length - 1]` before the push, which
presumes a nonempty buffer — guaranteed because pointer-down always
records the first point; the unreachable empty case emits no op. -/
def handlePointerMove (cs : CaptureState) (live : LiveVals) (pt : Point) :
    CaptureState × List DrawOp :=
  if cs.isDrawing then
    match cs.currentPoints with
    | some pending =>
      match pending.getLast? with
      | some prev =>
        (⟨cs.isDrawing, some (pending ++ [pt])⟩,
         [drawSegment live prev pt])
      | none => (⟨cs.isDrawing, some (pending ++ [pt])⟩, [])
    | none => (cs, [])
  else (cs, [])

/-- The presence record re-broadcast (`cursorChannel.track`) on every
pointer move, independent of drawing state. -/
def trackRecord (ctx : SessionCtx) (pt : Point) (now : Int) :
    PresenceRecord :=
  { user_id := ctx.userId, user_name := ctx.userName,
    user_color := ctx.userColor, x := pt.x, y := pt.y, timestamp := now }

/-- Run a sequence of pointer-move events, accumulating the capture
state and the incremental ops emitted, each move styled with the live
values at that move. -/
def runMoves (cs : CaptureState) : List MoveSample → CaptureState × List DrawOp
  | [] => (cs, [])
  | m :: ms =>
    let step := handlePointerMove cs m.live m.pt
    let rest := runMoves step.1 ms
    (rest.1, step.2 ++ rest.2)

/-- The segment ops an uninterrupted capture emits: one segment per
move, from the previous point, styled with that move's live values. -/
def segOps : Point → List MoveSample → List DrawOp
  | _, [] => []
  | prev, m :: ms =>
    drawSegment m.live prev m.pt :: segOps m.pt ms

/-- `handlePointerUp`: ignored unless a gesture is in progress;
otherwise capture ends and `commitStroke` runs. Returns (new capture
state, new committed list, submitted row if any). -/
def handlePointerUp (cs : CaptureState) (strokes : List Stroke)
    (live : LiveVals) (ctx : SessionCtx) (tempId : String) :
    CaptureState × List Stroke × Option PersistRow :=
  if cs.isDrawing then
    let out := commitStroke cs.currentPoints strokes live ctx tempId
    (⟨false, out.1⟩, out.2.1, out.2.2)
  else (cs, strokes, none)

/-- Ops `redrawAll` emits for one committed stroke: skipped when the
point list is absent or shorter than 2
(`if (!stroke.points || stroke.points.length < 2) continue`), else one
polyline in the stroke's own style, composited `destination-out` for the
eraser and `source-over` with the stroke's color otherwise. -/
def strokeOps (s : Stroke) : List DrawOp :=
  match s.points with
  | none => []
  | some ps =>
    if ps.length < 2 then []
    else
      [.polyline (toolMode s.tool)
        (if s.tool = "eraser" then none else some s.color) s.size ps]

/-- Ops `redrawAll` emits for the transient in-progress stroke: drawn
only when at least 2 points are buffered, styled with the live
tool/color/size read through the refs at redraw time. -/
def pendingOps (pending : Option (List Point)) (live : LiveVals) :
    List DrawOp :=
  match pending with
  | none => []
  | some ps =>
    if 2 ≤ ps.length then
      [.polyline (toolMode live.tool)
        (if live.tool = "eraser" then none else some live.color)
        live.size ps]
    else []

/-- Ops `redrawAll` emits for the remote cursors: a filled circle of
radius 8 in the user's color plus a white name label offset by (12, 4),
iterated in the mapping's insertion order. -/
def cursorOps (cursors : List (String × RemoteCursor)) : List DrawOp :=
  cursors.flatMap (fun kv =>
    [.circle kv.2.userColor ⟨kv.2.x, kv.2.y⟩ 8,
     .label "#ffffff" "12px Inter, sans-serif" kv.2.userName
       ⟨kv.2.x + 12, kv.2.y + 4⟩])

/-- The full op sequence of one `redrawAll` call: clear the whole
backing buffer, fill the background `#1e293b`, draw every committed
stroke in list order, then the in-progress stroke, then the cursors. -/
def renderOps (st : RenderState) (dims : CanvasDims) : List DrawOp :=
  .clearRect dims.deviceW dims.deviceH ::
  .fillRect "#1e293b" dims.cssW dims.cssH ::
  (st.strokes.flatMap strokeOps ++
   pendingOps st.pendingPoints st.live ++
   cursorOps st.remoteCursors)

/-- Apply one op to the canvas: a `clearRect` (always full-surface in
this code) resets the content, anything else paints over it. -/
def applyOp (img : Image) (op : DrawOp) : Image :=
  match op with
  | .clearRect w h => [.clearRect w h]
  | op => img ++ [op]

/-- Apply a sequence of ops to the canvas. -/
def runOps (img : Image) (ops : List DrawOp) : Image :=
  ops.foldl applyOp img

/-- One `redrawAll` call as a canvas transformer. -/
def redrawAll (st : RenderState) (dims : CanvasDims) (img : Image) :
    Image :=
  runOps img (renderOps st dims)

/-- Build a `RemoteCursor` from a presence record, as the sync handler
does field by field. -/
def mkRemoteCursor (p : PresenceRecord) : RemoteCursor :=
  { userId := p.user_id, userName := p.user_name,
    userColor := p.user_color, x := p.x, y := p.y,
    timestamp := p.timestamp }

/-- One connection key of the presence sync handler
(`if (presences && presences.length > 0)`): the first presence record of
the key is taken; it is skipped when it is the local user's, otherwise
it is `Map.set` into the mapping keyed by its `user_id`. -/
def syncStep (userId : String) (acc : List (String × RemoteCursor))
    (kv : String × List PresenceRecord) : List (String × RemoteCursor) :=
  match kv.2.head? with
  | none => acc
  | some p =>
    if p.user_id = userId then acc
    else mapSet acc p.user_id (mkRemoteCursor p)

/-- The presence `sync` handler: rebuild the remote-cursor mapping from
scratch out of the delivered presence state (`presenceState()`,
modelled as an association list of connection key to presence records). -/
def syncCursors (userId : String)
    (state : List (String × List PresenceRecord)) :
    List (String × RemoteCursor) :=
  state.foldl (syncStep userId) []

/-- Mode and style color of a polyline op, `none` for other ops. -/
def opStyle : DrawOp → Option (CompositeMode × Option String)
  | .polyline m c _ _ => some (m, c)
  | _ => none

/-- A well-formed entry of the rebuilt remote-cursor mapping: keyed by a
remote (non-local) `userId`, equal to its cursor's `userId`, and built
from the first presence record of some connection key of the delivered
snapshot. -/
def goodCursor (uid : String) (state : List (String × List PresenceRecord))
    (kv : String × RemoteCursor) : Prop :=
  kv.1 ≠ uid ∧ kv.2.userId = kv.1 ∧
  ∃ e ∈ state, ∃ p, e.2.head? = some p ∧ p.user_id = kv.1 ∧
    kv.2 = mkRemoteCursor p

/-- An uninterrupted capture over a nonempty point buffer: every move
pushes its point onto the buffer and emits exactly one segment op styled
with that move's live values. -/
theorem runMoves_capturing (moves : List MoveSample) :
    ∀ (pending : List Point) (prev : Point),
    runMoves ⟨true, some (pending ++ [prev])⟩ moves =
      (⟨true, some ((pending ++ [prev]) ++ moves.map (·.pt))⟩,
       segOps prev moves) := by
  induction moves with
  | nil => intro pending prev; simp [runMoves, segOps]
  | cons m ms ih =>
    intro pending prev
    have hstep : handlePointerMove ⟨true, some (pending ++ [prev])⟩ m.live
        m.pt =
        (⟨true, some ((pending ++ [prev]) ++ [m.pt])⟩,
         [drawSegment m.live prev m.pt]) := by
      simp [handlePointerMove, List.getLast?_concat]
    have hih := ih (pending ++ [prev]) m.pt
    simp only [runMoves, hstep, List.singleton_append, List.cons_append,
      List.nil_append, List.append_assoc] at hih ⊢
    rw [hih]
    simp [segOps]

/-- Claim C1 (counterexample): a captured gesture with exactly 1
recorded point (pointer-down at (0,0), no moves, pointer-up) is NOT
discarded: a stroke is appended to the committed list and a row is
submitted to the persistence port, because `commitStroke` only returns
early on `length === 0`. -/
theorem claim_c1_counterexample :
    (handlePointerDown ⟨false, none⟩ (some 0) ⟨0, 0⟩).currentPoints =
      some [⟨0, 0⟩] ∧
    (handlePointerUp (handlePointerDown ⟨false, none⟩ (some 0) ⟨0, 0⟩) []
        ⟨"pen", "#ff0000", 4⟩ ⟨"R1", "U1", "Alice", "#f00"⟩ "local-1").2.1 =
      [⟨"local-1", some [⟨0, 0⟩], "#ff0000", 4, "pen", "U1"⟩] ∧
    (handlePointerUp (handlePointerDown ⟨false, none⟩ (some 0) ⟨0, 0⟩) []
        ⟨"pen", "#ff0000", 4⟩ ⟨"R1", "U1", "Alice", "#f00"⟩ "local-1").2.1 ≠
      [] ∧
    (handlePointerUp (handlePointerDown ⟨false, none⟩ (some 0) ⟨0, 0⟩) []
        ⟨"pen", "#ff0000", 4⟩ ⟨"R1", "U1", "Alice", "#f00"⟩ "local-1").2.2 ≠
      none := by
  decide

/-- Claim C1 (amended): finalization on pointer-up discards a captured
gesture only when its recorded point buffer is empty or absent: then no
stroke is appended and nothing is submitted to persistence. A gesture
with 1 or more recorded points — including exactly 1 — is appended to
the committed list and submitted. -/
theorem claim_c1 (cs : CaptureState) (strokes : List Stroke)
    (live : LiveVals) (ctx : SessionCtx) (tempId : String) :
    ((cs.currentPoints = some [] ∨ cs.currentPoints = none) →
      (handlePointerUp cs strokes live ctx tempId).2.1 = strokes ∧
      (handlePointerUp cs strokes live ctx tempId).2.2 = none) ∧
    (∀ pts, pts ≠ [] → cs.isDrawing = true → cs.currentPoints = some pts →
      (handlePointerUp cs strokes live ctx tempId).2.1 =
        strokes ++ [⟨tempId, some pts, live.color, live.size, live.tool,
          ctx.userId⟩] ∧
      (handlePointerUp cs strokes live ctx tempId).2.2 =
        some ⟨ctx.roomId, ctx.userId, ctx.userName, ctx.userColor, pts,
          live.color, live.size, live.tool⟩) := by
  constructor
  · rintro (h | h) <;>
      simp [handlePointerUp, commitStroke, h] <;>
      cases cs.isDrawing <;> simp
  · intro pts hne hdraw hcur
    have hlen : pts.length ≠ 0 := by
      simpa [List.length_eq_zero] using hne
    simp [handlePointerUp, commitStroke, hdraw, hcur, hlen]

/-- Witness for the amended claim C1 at concrete inputs: an empty buffer
is discarded; a 2-point gesture is appended and submitted. -/
theorem claim_c1_witness :
    ((handlePointerUp ⟨true, some []⟩ [] ⟨"pen", "#fff", 4⟩
        ⟨"R", "U", "N", "#c"⟩ "t").2.1 = [] ∧
      (handlePointerUp ⟨true, some []⟩ [] ⟨"pen", "#fff", 4⟩
        ⟨"R", "U", "N", "#c"⟩ "t").2.2 = none) ∧
    ((handlePointerUp ⟨true, some [⟨1, 2⟩, ⟨3, 4⟩]⟩ [] ⟨"pen", "#fff", 4⟩
        ⟨"R", "U", "N", "#c"⟩ "t").2.1 =
      [⟨"t", some [⟨1, 2⟩, ⟨3, 4⟩], "#fff", 4, "pen", "U"⟩] ∧
      (handlePointerUp ⟨true, some [⟨1, 2⟩, ⟨3, 4⟩]⟩ [] ⟨"pen", "#fff", 4⟩
        ⟨"R", "U", "N", "#c"⟩ "t").2.2 =
      some ⟨"R", "U", "N", "#c", [⟨1, 2⟩, ⟨3, 4⟩], "#fff", 4, "pen"⟩) :=
  ⟨(claim_c1 ⟨true, some []⟩ [] ⟨"pen", "#fff", 4⟩ ⟨"R", "U", "N", "#c"⟩
      "t").1 (Or.inl rfl),
   (claim_c1 ⟨true, some [⟨1, 2⟩, ⟨3, 4⟩]⟩ [] ⟨"pen", "#fff", 4⟩
      ⟨"R", "U", "N", "#c"⟩ "t").2 [⟨1, 2⟩, ⟨3, 4⟩] (by decide) rfl rfl⟩

/-- Claim C2: a remote Insert whose stroke carries an absent or
fewer-than-2-point point list does not affect the rendered output: the
INSERT handler appends it, but `redrawAll` re-validates
`points.length ≥ 2` (and presence of `points`) before rendering, so the
full-redraw op sequence is unchanged; the guard precedes every point
access, so the (total) renderer cannot crash on it. -/
theorem claim_c2 (st : RenderState) (dims : CanvasDims) (p : InsertPayload)
    (hdeg : ∀ ps, p.points = some ps → ps.length < 2) :
    strokeOps (parseInsert p) = [] ∧
    renderOps { st with strokes := applyRemoteInsert st.strokes p } dims =
      renderOps st dims := by
  have h0 : strokeOps (parseInsert p) = [] := by
    unfold strokeOps parseInsert
    cases hp : p.points with
    | none => simp
    | some ps => simp [hdeg ps hp]
  refine ⟨h0, ?_⟩
  simp [renderOps, applyRemoteInsert, List.flatMap_append, h0]

/-- Witness for claim C2: a remote Insert carrying a single point leaves
the full-redraw output of an empty board unchanged. -/
theorem claim_c2_witness :
    strokeOps (parseInsert ⟨"s1", some [⟨1, 1⟩], "#123", 3, "pen", "U9"⟩) =
      [] ∧
    renderOps
        { strokes :=
            applyRemoteInsert []
              ⟨"s1", some [⟨1, 1⟩], "#123", 3, "pen", "U9"⟩,
          pendingPoints := none, remoteCursors := [],
          live := ⟨"pen", "#fff", 4⟩ } ⟨800, 600, 400, 300⟩ =
      renderOps
        { strokes := [], pendingPoints := none, remoteCursors := [],
          live := ⟨"pen", "#fff", 4⟩ } ⟨800, 600, 400, 300⟩ :=
  claim_c2
    { strokes := [], pendingPoints := none, remoteCursors := [],
      live := ⟨"pen", "#fff", 4⟩ } ⟨800, 600, 400, 300⟩
    ⟨"s1", some [⟨1, 1⟩], "#123", 3, "pen", "U9"⟩
    (by intro ps h; cases h; decide)

/-- Claim C3: `commitStroke` appends the finished stroke to the
committed list and submits the persistence row before the write is
awaited, and whatever the write's outcome — including a storage error,
which is only logged — the committed list is left untouched: no
rollback. -/
theorem claim_c3 (strokes : List Stroke) (pts : List Point)
    (live : LiveVals) (ctx : SessionCtx) (tempId : String)
    (r : PersistResult) (hne : pts ≠ []) :
    (commitStroke (some pts) strokes live ctx tempId).2.1 =
      strokes ++ [⟨tempId, some pts, live.color, live.size, live.tool,
        ctx.userId⟩] ∧
    (commitStroke (some pts) strokes live ctx tempId).2.2 =
      some ⟨ctx.roomId, ctx.userId, ctx.userName, ctx.userColor, pts,
        live.color, live.size, live.tool⟩ ∧
    (afterPersist (commitStroke (some pts) strokes live ctx tempId).2.1
        r).1 =
      (commitStroke (some pts) strokes live ctx tempId).2.1 := by
  have hlen : pts.length ≠ 0 := by simpa [List.length_eq_zero] using hne
  refine ⟨by simp [commitStroke, hlen], by simp [commitStroke, hlen], ?_⟩
  cases r <;> rfl

/-- Witness for claim C3: a 2-point stroke is appended, its row is
submitted, and a failing write leaves the list unchanged. -/
theorem claim_c3_witness :
    (commitStroke (some [⟨0, 0⟩, ⟨1, 1⟩]) [] ⟨"pen", "#fff", 4⟩
        ⟨"R", "U", "N", "#c"⟩ "t").2.1 =
      [⟨"t", some [⟨0, 0⟩, ⟨1, 1⟩], "#fff", 4, "pen", "U"⟩] ∧
    (commitStroke (some [⟨0, 0⟩, ⟨1, 1⟩]) [] ⟨"pen", "#fff", 4⟩
        ⟨"R", "U", "N", "#c"⟩ "t").2.2 =
      some ⟨"R", "U", "N", "#c", [⟨0, 0⟩, ⟨1, 1⟩], "#fff", 4, "pen"⟩ ∧
    (afterPersist (commitStroke (some [⟨0, 0⟩, ⟨1, 1⟩]) []
        ⟨"pen", "#fff", 4⟩ ⟨"R", "U", "N", "#c"⟩ "t").2.1
        (.storageError "boom")).1 =
      (commitStroke (some [⟨0, 0⟩, ⟨1, 1⟩]) [] ⟨"pen", "#fff", 4⟩
        ⟨"R", "U", "N", "#c"⟩ "t").2.1 :=
  claim_c3 [] [⟨0, 0⟩, ⟨1, 1⟩] ⟨"pen", "#fff", 4⟩ ⟨"R", "U", "N", "#c"⟩ "t"
    (.storageError "boom") (by decide)

/-- Claim C4: a remote clear (Delete) notification replaces the
committed list with the empty list whatever its prior contents, and a
subsequent full redraw emits exactly the background clear and fill, the
still-in-progress local stroke if any, and the remote cursors — no
committed-stroke ops. -/
theorem claim_c4 (strokes : List Stroke) (pending : Option (List Point))
    (live : LiveVals) (cursors : List (String × RemoteCursor))
    (dims : CanvasDims) :
    applyRemoteClear strokes = [] ∧
    renderOps ⟨applyRemoteClear strokes, pending, cursors, live⟩ dims =
      .clearRect dims.deviceW dims.deviceH ::
      .fillRect "#1e293b" dims.cssW dims.cssH ::
      (pendingOps pending live ++ cursorOps cursors) :=
  ⟨rfl, by simp [renderOps, applyRemoteClear]⟩

/-- Claim C5: a finalized gesture — pointer-down, any sequence of moves
drawn under arbitrary (possibly changing) per-move tool/color/size, and
pointer-up — appends to the committed list and submits to persistence a
stroke carrying exactly the tool, color, and size live at finalize time
(`liveF`); the per-move values of `moves` do not occur in the result, so
a user who changes color mid-stroke gets every point in the final
color. -/
theorem claim_c5 (p₀ : Point) (moves : List MoveSample) (liveF : LiveVals)
    (strokes : List Stroke) (ctx : SessionCtx) (tempId : String) :
    handlePointerUp
        (runMoves (handlePointerDown ⟨false, none⟩ (some 0) p₀) moves).1
        strokes liveF ctx tempId =
      (⟨false, none⟩,
       strokes ++ [{ id := tempId, points := some (p₀ :: moves.map (·.pt)),
                     color := liveF.color, size := liveF.size,
                     tool := liveF.tool, userId := ctx.userId }],
       some { room_id := ctx.roomId, user_id := ctx.userId,
              user_name := ctx.userName, user_color := ctx.userColor,
              points := p₀ :: moves.map (·.pt), color := liveF.color,
              size := liveF.size, tool := liveF.tool }) := by
  have hdown : handlePointerDown ⟨false, none⟩ (some 0) p₀ =
      ⟨true, some [p₀]⟩ := rfl
  have h := runMoves_capturing moves [] p₀
  simp only [List.nil_append] at h
  rw [hdown, h]
  simp [handlePointerUp, commitStroke]

/-- Claim C6: the committed list is append-only and order-preserving
outside of clear: a remote insert and a local commit each leave the
existing list as a prefix of the new one and append at most one stroke
at the tail (their elements, being immutable values, are unchanged at
their positions). -/
theorem claim_c6 (strokes : List Stroke) (p : InsertPayload)
    (cur : Option (List Point)) (live : LiveVals) (ctx : SessionCtx)
    (tempId : String) :
    (strokes <+: applyRemoteInsert strokes p ∧
     (applyRemoteInsert strokes p).length = strokes.length + 1) ∧
    (strokes <+: (commitStroke cur strokes live ctx tempId).2.1 ∧
     (commitStroke cur strokes live ctx tempId).2.1.length ≤
       strokes.length + 1) := by
  refine ⟨⟨List.prefix_append strokes _, by simp [applyRemoteInsert]⟩, ?_⟩
  cases cur with
  | none => exact ⟨List.prefix_refl strokes, Nat.le_succ _⟩
  | some pts =>
    by_cases h : pts.length = 0
    · simp [commitStroke, h]
    · simp [commitStroke, h]

/-- Claim C7: an eraser stroke is composited `destination-out`
(replace-with-transparent punch-through, under which the source color is
irrelevant and hence absent) by both the full redraw and the incremental
segment draw, while a non-eraser stroke is composited `source-over` with
its own color. -/
theorem claim_c7 (s : Stroke) (live : LiveVals) (p q : Point) :
    (s.tool = "eraser" →
      (∀ op ∈ strokeOps s, opStyle op = some (.destinationOut, none)) ∧
      opStyle (drawSegment ⟨s.tool, live.color, live.size⟩ p q) =
        some (.destinationOut, none)) ∧
    (s.tool ≠ "eraser" →
      (∀ op ∈ strokeOps s, opStyle op = some (.sourceOver, some s.color)) ∧
      opStyle (drawSegment ⟨s.tool, live.color, live.size⟩ p q) =
        some (.sourceOver, some live.color)) := by
  constructor
  · intro he
    constructor
    · intro op hop
      unfold strokeOps at hop
      cases hp : s.points with
      | none => simp [hp] at hop
      | some ps =>
        rw [hp] at hop
        by_cases hl : ps.length < 2
        · simp [hl] at hop
        · simp [hl, he, toolMode] at hop
          simp [hop, opStyle]
    · simp [drawSegment, toolMode, he, opStyle]
  · intro he
    constructor
    · intro op hop
      unfold strokeOps at hop
      cases hp : s.points with
      | none => simp [hp] at hop
      | some ps =>
        rw [hp] at hop
        by_cases hl : ps.length < 2
        · simp [hl] at hop
        · simp [hl, he, toolMode] at hop
          simp [hop, opStyle]
    · simp [drawSegment, toolMode, he, opStyle]

/-- Witness for claim C7: a concrete eraser stroke renders
`destination-out` with no color, a concrete pen stroke renders
`source-over` in its own color. -/
theorem claim_c7_witness :
    (∀ op ∈ strokeOps ⟨"e1", some [⟨0, 0⟩, ⟨1, 1⟩], "#000", 4, "eraser",
        "U"⟩, opStyle op = some (.destinationOut, none)) ∧
    opStyle (drawSegment ⟨"eraser", "#abc", 4⟩ ⟨0, 0⟩ ⟨1, 1⟩) =
      some (.destinationOut, none) ∧
    (∀ op ∈ strokeOps ⟨"p1", some [⟨0, 0⟩, ⟨1, 1⟩], "#123", 4, "pen", "U"⟩,
      opStyle op = some (.sourceOver, some "#123")) :=
  ⟨((claim_c7 ⟨"e1", some [⟨0, 0⟩, ⟨1, 1⟩], "#000", 4, "eraser", "U"⟩
      ⟨"eraser", "#abc", 4⟩ ⟨0, 0⟩ ⟨1, 1⟩).1 rfl).1,
   ((claim_c7 ⟨"e1", some [⟨0, 0⟩, ⟨1, 1⟩], "#000", 4, "eraser", "U"⟩
      ⟨"eraser", "#abc", 4⟩ ⟨0, 0⟩ ⟨1, 1⟩).1 rfl).2,
   ((claim_c7 ⟨"p1", some [⟨0, 0⟩, ⟨1, 1⟩], "#123", 4, "pen", "U"⟩
      ⟨"pen", "#abc", 4⟩ ⟨0, 0⟩ ⟨1, 1⟩).2 (by decide)).1⟩

/-- `mapSet` never duplicates a key: the key list is unchanged when the
key exists and gains only the fresh key otherwise. -/
theorem mapSet_keys_nodup {α : Type} (m : List (String × α)) (k : String)
    (v : α) (h : (m.map Prod.fst).Nodup) :
    ((mapSet m k v).map Prod.fst).Nodup := by
  unfold mapSet
  by_cases hc : k ∈ m.map Prod.fst
  · rw [if_pos hc]
    have heq : (m.map (fun kv => if kv.1 = k then (k, v) else kv)).map
        Prod.fst = m.map Prod.fst := by
      rw [List.map_map]
      apply List.map_eq_map_iff.mpr
      intro a _
      by_cases ha : a.1 = k
      · simp [ha]
      · simp [ha]
    rw [heq]; exact h
  · rw [if_neg hc, List.map_append]
    simp only [List.map_cons, List.map_nil]
    exact List.Nodup.append h (List.nodup_singleton k)
      (by simpa [List.disjoint_singleton] using hc)

/-- Every entry of `mapSet m k v` comes from `m` or is the new pair. -/
theorem mapSet_mem {α : Type} {m : List (String × α)} {k : String} {v : α}
    {kv : String × α} (h : kv ∈ mapSet m k v) : kv ∈ m ∨ kv = (k, v) := by
  unfold mapSet at h
  by_cases hc : k ∈ m.map Prod.fst
  · rw [if_pos hc] at h
    obtain ⟨x, hx, he⟩ := List.mem_map.mp h
    by_cases hxk : x.1 = k
    · right; rw [if_pos hxk] at he; exact he.symm
    · left; rw [if_neg hxk] at he; exact he ▸ hx
  · rw [if_neg hc] at h
    rcases List.mem_append.mp h with h | h
    · exact Or.inl h
    · exact Or.inr (List.mem_singleton.mp h)

/-- `syncStep` on a connection key with no presence records leaves the
mapping unchanged. -/
theorem syncStep_eq_none (uid : String) (acc : List (String × RemoteCursor))
    (e : String × List PresenceRecord) (h : e.2.head? = none) :
    syncStep uid acc e = acc := by
  unfold syncStep; rw [h]

/-- `syncStep` on a connection key whose first presence record is `p`:
skip it when it is the local user's, otherwise `Map.set` it in. -/
theorem syncStep_eq_head (uid : String) (acc : List (String × RemoteCursor))
    (e : String × List PresenceRecord) (p : PresenceRecord)
    (h : e.2.head? = some p) :
    syncStep uid acc e =
      if p.user_id = uid then acc
      else mapSet acc p.user_id (mkRemoteCursor p) := by
  unfold syncStep; rw [h]

/-- `syncStep` preserves key uniqueness of the cursor mapping. -/
theorem syncStep_keys_nodup (uid : String)
    (acc : List (String × RemoteCursor))
    (e : String × List PresenceRecord) (h : (acc.map Prod.fst).Nodup) :
    ((syncStep uid acc e).map Prod.fst).Nodup := by
  cases hE : e.2.head? with
  | none => rw [syncStep_eq_none uid acc e hE]; exact h
  | some p =>
    rw [syncStep_eq_head uid acc e p hE]
    by_cases hid : p.user_id = uid
    · rw [if_pos hid]; exact h
    · rw [if_neg hid]; exact mapSet_keys_nodup acc p.user_id _ h

/-- Every entry produced by `syncStep` either was already in the mapping
or is built from the head presence record of the processed key, with a
non-local `user_id` as its key. -/
theorem syncStep_mem (uid : String) (acc : List (String × RemoteCursor))
    (e : String × List PresenceRecord) (kv : String × RemoteCursor)
    (h : kv ∈ syncStep uid acc e) :
    kv ∈ acc ∨
      (kv.1 ≠ uid ∧ kv.2.userId = kv.1 ∧ ∃ p, e.2.head? = some p ∧
        p.user_id = kv.1 ∧ kv.2 = mkRemoteCursor p) := by
  cases hE : e.2.head? with
  | none => rw [syncStep_eq_none uid acc e hE] at h; exact Or.inl h
  | some p =>
    rw [syncStep_eq_head uid acc e p hE] at h
    by_cases hid : p.user_id = uid
    · rw [if_pos hid] at h; exact Or.inl h
    · rw [if_neg hid] at h
      rcases mapSet_mem h with h' | h'
      · exact Or.inl h'
      · refine Or.inr ?_
        rw [h']
        exact ⟨hid, rfl, p, rfl, rfl, rfl⟩

/-- Folding `syncStep` over a presence snapshot keeps the key list
duplicate-free and produces only entries from the accumulator or
well-formed entries of the snapshot. -/
theorem syncFold_good (uid : String)
    (state : List (String × List PresenceRecord)) :
    ∀ acc : List (String × RemoteCursor), (acc.map Prod.fst).Nodup →
      (((state.foldl (syncStep uid) acc).map Prod.fst).Nodup ∧
       ∀ kv ∈ state.foldl (syncStep uid) acc,
         kv ∈ acc ∨ goodCursor uid state kv) := by
  induction state with
  | nil => exact fun acc h => ⟨h, fun kv hkv => Or.inl hkv⟩
  | cons e tl ih =>
    intro acc h
    obtain ⟨hn, hm⟩ := ih (syncStep uid acc e) (syncStep_keys_nodup uid acc e h)
    refine ⟨hn, ?_⟩
    intro kv hkv
    rcases hm kv hkv with hin | hg
    · rcases syncStep_mem uid acc e kv hin with
        hin' | ⟨hne, hmatch, p, hp, hid, hc⟩
      · exact Or.inl hin'
      · exact Or.inr ⟨hne, hmatch, e, List.mem_cons_self e tl, p, hp, hid, hc⟩
    · obtain ⟨hne, hmatch, e', he', rest⟩ := hg
      exact Or.inr ⟨hne, hmatch, e', List.mem_cons_of_mem e he', rest⟩

/-- Claim C8: the presence sync handler rebuilds the remote-cursor
mapping from scratch with exactly one entry per remote `userId` (the key
list is duplicate-free), every entry keyed by a `userId` different from
the local participant's and built from the first presence record of some
connection key of the delivered snapshot. -/
theorem claim_c8 (uid : String)
    (state : List (String × List PresenceRecord)) :
    ((syncCursors uid state).map Prod.fst).Nodup ∧
    ∀ kv ∈ syncCursors uid state, goodCursor uid state kv := by
  obtain ⟨hn, hm⟩ := syncFold_good uid state [] (by simp)
  exact ⟨hn, fun kv h => (hm kv h).resolve_left (List.not_mem_nil kv)⟩

/-- Witness for claim C8, the spec's scenario: a sync carrying users U2
and U3 plus the local user U1 yields exactly 2 entries; the U2 entry is
present and well-formed (in particular not keyed by U1). -/
theorem claim_c8_witness :
    (syncCursors "U1"
        [("k2", [⟨"U2", "Bob", "#00f", 5, 6, 100⟩]),
         ("k3", [⟨"U3", "Eve", "#0f0", 7, 8, 101⟩]),
         ("k1", [⟨"U1", "Me", "#f00", 0, 0, 99⟩])]).length = 2 ∧
    ("U2", mkRemoteCursor ⟨"U2", "Bob", "#00f", 5, 6, 100⟩) ∈
      syncCursors "U1"
        [("k2", [⟨"U2", "Bob", "#00f", 5, 6, 100⟩]),
         ("k3", [⟨"U3", "Eve", "#0f0", 7, 8, 101⟩]),
         ("k1", [⟨"U1", "Me", "#f00", 0, 0, 99⟩])] ∧
    goodCursor "U1"
      [("k2", [⟨"U2", "Bob", "#00f", 5, 6, 100⟩]),
       ("k3", [⟨"U3", "Eve", "#0f0", 7, 8, 101⟩]),
       ("k1", [⟨"U1", "Me", "#f00", 0, 0, 99⟩])]
      ("U2", mkRemoteCursor ⟨"U2", "Bob", "#00f", 5, 6, 100⟩) :=
  ⟨by decide, by decide,
   (claim_c8 "U1"
      [("k2", [⟨"U2", "Bob", "#00f", 5, 6, 100⟩]),
       ("k3", [⟨"U3", "Eve", "#0f0", 7, 8, 101⟩]),
       ("k1", [⟨"U1", "Me", "#f00", 0, 0, 99⟩])]).2 _ (by decide)⟩

/-- Claim C9: full redraw is idempotent — with the same render state,
redrawing twice leaves the canvas exactly as redrawing once, because
every redraw starts by clearing the whole backing buffer. -/
theorem claim_c9 (st : RenderState) (dims : CanvasDims) (img : Image) :
    redrawAll st dims (redrawAll st dims img) = redrawAll st dims img := by
  simp [redrawAll, runOps, renderOps, applyOp]

/-- Claim C10: after a gesture whose moves were incrementally drawn with
arbitrary per-move live values (first conjunct: each segment op carries
the values live at that move), a full redraw renders the entire
in-progress point list as one polyline styled with the tool/color/size
live at redraw time (`rd`) — retroactively restyling every previously
drawn segment. -/
theorem claim_c10 (p₀ : Point) (moves : List MoveSample) (rd : LiveVals) :
    (runMoves ⟨true, some [p₀]⟩ moves).2 = segOps p₀ moves ∧
    pendingOps (runMoves ⟨true, some [p₀]⟩ moves).1.currentPoints rd =
      (if moves.isEmpty then []
       else [.polyline (toolMode rd.tool)
              (if rd.tool = "eraser" then none else some rd.color)
              rd.size (p₀ :: moves.map (·.pt))]) := by
  have h := runMoves_capturing moves [] p₀
  simp only [List.nil_append] at h
  rw [h]
  refine ⟨rfl, ?_⟩
  cases moves with
  | nil => simp [pendingOps]
  | cons m ms => simp [pendingOps, Nat.succ_le_succ, Nat.le_add_left]
